import Mathlib

/-!
DNS Knowledge Quiz — verification of the core state machine.

Shallow embedding of the core logic of `src/Quiz.jsx` (the `DNSQuiz`
component): one-time randomized domain generation, the fixed question
bank, and the quiz session state machine (`handleAnswer`, `handleNext`,
`handleRestart`, `getScoreMessage`), together with the render-level
guards that decide which of these handlers a user event can reach.

Modelling conventions:
* The random source (`Math.random()` drawn twice per `getRandomDomain`
  call, each time floored into an index `0..9`) is an explicit stream
  `rng : Nat -> Fin 10 × Fin 10`; a position counter `k` records how many
  draws have been consumed.
* The unbounded JS `do/while` rejection-sampling loop in
  `getUniqueDomain` is embedded with an explicit iteration budget
  `fuel`; `none` means "the loop had not exited after `fuel` iterations"
  (the JS source has no failure path at all).
* JavaScript exact arithmetic in `getScoreMessage` is embedded over `ℚ`;
  `Math.round` is `jsRound` (floor of `x + 1/2`, JS rounds half up).
-/

/-- The ten domain words of `Quiz.jsx` line 35. -/
def domainWords : List String :=
  ["stellar", "quantum", "nexus", "apex", "zenith",
   "vertex", "pulse", "forge", "orbit", "prism"]

/-- The ten TLDs of `Quiz.jsx` line 36. -/
def tlds : List String :=
  [".com", ".org", ".net", ".pro", ".cloud",
   ".tech", ".io", ".dev", ".app", ".site"]

/-- Embeds `getRandomDomain` (`Quiz.jsx` lines 38-42): draw a word index and a
TLD index from the random stream at position `k` and concatenate
`word + tld`. -/
def getRandomDomain (rng : Nat → Fin 10 × Fin 10) (k : Nat) : String :=
  domainWords.getD ((rng k).1 : Nat) "" ++ tlds.getD ((rng k).2 : Nat) ""

/-- Embeds `getUniqueDomain` (`Quiz.jsx` lines 44-50): resample
`getRandomDomain` until the result is not in `existing`.  The JS loop is
`do { domain = getRandomDomain(); } while (existing.includes(domain));`
with no retry cap; `fuel` bounds how many iterations we unfold, and
`none` means the loop was still running after `fuel` iterations.  On
success the next unused stream position is returned with the domain. -/
def getUniqueDomain (rng : Nat → Fin 10 × Fin 10) (existing : List String) :
    Nat → Nat → Option (String × Nat)
  | _, 0 => none
  | k, fuel + 1 =>
    let domain := getRandomDomain rng k
    if existing.contains domain then getUniqueDomain rng existing (k + 1) fuel
    else some (domain, k + 1)

/-- The DomainSet produced by the `domains` `useMemo` (`Quiz.jsx`
lines 56-63).  `example` is a Lean keyword, written `«example»`. -/
structure DomainSet where
  primary : String
  cluster : String
  secondary : String
  «example» : String
  subdomain : String
  tld : String
deriving DecidableEq, Repr

/-- JavaScript `String.prototype.split('.')` over the character list:
cut at every `'.'`. -/
def splitDotAux : List Char → List Char → List (List Char)
  | [], acc => [acc.reverse]
  | c :: cs, acc =>
    if c = '.' then acc.reverse :: splitDotAux cs []
    else splitDotAux cs (c :: acc)

/-- Embeds `primary.split('.')` as used at `Quiz.jsx` lines 61-62. -/
def jsSplitDot (s : String) : List String :=
  (splitDotAux s.data []).map List.asString

/-- The body of the `domains` `useMemo` (`Quiz.jsx` lines 34-64):
`primary` from `getRandomDomain()`, `secondary` unique against
`[primary]`, `example` unique against `[primary, secondary]`, then the
derived fields `cluster = 'okd.' + primary`,
`subdomain = primary.split('.')[0]`, `tld = '.' + primary.split('.')[1]`.
`none` only when a rejection-sampling loop exceeded `fuel`. -/
def generateDomains (rng : Nat → Fin 10 × Fin 10) (fuel : Nat) :
    Option DomainSet :=
  let primary := getRandomDomain rng 0
  match getUniqueDomain rng [primary] 1 fuel with
  | none => none
  | some (secondary, k) =>
    match getUniqueDomain rng [primary, secondary] k fuel with
    | none => none
    | some (ex, _) =>
      some { primary := primary
             cluster := "okd." ++ primary
             secondary := secondary
             «example» := ex
             subdomain := (jsSplitDot primary).getD 0 ""
             tld := "." ++ (jsSplitDot primary).getD 1 "" }

/-- A question of the bank (`Quiz.jsx` lines 72-707).  The question,
option and explanation texts are inert presentation data never read by
any state transition (only `options.length` via the rendered buttons and
`correct` via the scoring comparison matter), so each entry of the
embedding keeps its `correct` index and its number of options. -/
structure Question where
  correct : Nat
  numOptions : Nat
deriving DecidableEq, Repr

/-- The `questions` array (`Quiz.jsx` lines 72-707), one entry per
question object in source order: its `correct` field and the length of
its `options` array. -/
def questionsList : List Question :=
  [⟨1, 4⟩, ⟨1, 4⟩, ⟨1, 4⟩, ⟨1, 4⟩, ⟨2, 4⟩, ⟨1, 4⟩, ⟨1, 4⟩, ⟨1, 4⟩,
   ⟨2, 4⟩, ⟨1, 4⟩, ⟨1, 4⟩, ⟨1, 4⟩, ⟨2, 4⟩, ⟨1, 4⟩, ⟨1, 4⟩, ⟨1, 4⟩,
   ⟨1, 4⟩, ⟨2, 4⟩, ⟨1, 4⟩, ⟨1, 4⟩, ⟨1, 4⟩, ⟨1, 4⟩, ⟨1, 4⟩, ⟨1, 4⟩,
   ⟨1, 4⟩, ⟨1, 4⟩, ⟨1, 4⟩, ⟨1, 4⟩, ⟨1, 4⟩, ⟨1, 4⟩, ⟨3, 4⟩, ⟨1, 4⟩,
   ⟨1, 4⟩, ⟨1, 4⟩, ⟨3, 4⟩, ⟨1, 4⟩, ⟨0, 4⟩, ⟨0, 4⟩, ⟨0, 4⟩, ⟨0, 4⟩,
   ⟨0, 4⟩, ⟨1, 4⟩, ⟨1, 4⟩, ⟨2, 4⟩, ⟨1, 4⟩, ⟨1, 4⟩, ⟨1, 4⟩, ⟨1, 4⟩,
   ⟨1, 4⟩, ⟨0, 4⟩, ⟨1, 4⟩, ⟨1, 4⟩, ⟨1, 4⟩, ⟨1, 4⟩, ⟨1, 4⟩, ⟨1, 4⟩,
   ⟨2, 4⟩, ⟨1, 4⟩, ⟨1, 4⟩]

/-- The five `useState` variables of the component (`Quiz.jsx`
lines 66-70): `currentQuestion`, `score`, `selectedAnswer` (`null` is
`none`), `showExplanation` and `quizComplete`. -/
structure QuizState where
  currentQuestion : Nat
  score : Nat
  selectedAnswer : Option Nat
  showExplanation : Bool
  quizComplete : Bool
deriving DecidableEq, Repr

/-- The initial values of the five `useState` calls (`Quiz.jsx`
lines 66-70). -/
def initialState : QuizState :=
  { currentQuestion := 0
    score := 0
    selectedAnswer := none
    showExplanation := false
    quizComplete := false }

/-- Embeds `handleAnswer` (`Quiz.jsx` lines 709-716): record the selected
index, reveal the explanation, and add 1 to the score exactly when
`index === questions[currentQuestion].correct`.  (With
`currentQuestion` in range — the only way the render logic can call the
handler — the `get?` lookup is the array access of the source.) -/
def handleAnswer (s : QuizState) (index : Nat) : QuizState :=
  { s with
    selectedAnswer := some index
    showExplanation := true
    score :=
      if (questionsList.get? s.currentQuestion).map Question.correct = some index
      then s.score + 1 else s.score }

/-- Embeds `handleNext` (`Quiz.jsx` lines 718-726): below the last index,
advance and clear the per-question fields; at the last index, set
`quizComplete`. -/
def handleNext (s : QuizState) : QuizState :=
  if s.currentQuestion < questionsList.length - 1 then
    { s with
      currentQuestion := s.currentQuestion + 1
      selectedAnswer := none
      showExplanation := false }
  else
    { s with quizComplete := true }

/-- Embeds `handleRestart` (`Quiz.jsx` lines 728-734): reset the five state
variables to their initial values.  It does not touch the `domains`
`useMemo`, whose empty dependency array recomputes only at mount. -/
def handleRestart (_s : QuizState) : QuizState :=
  { currentQuestion := 0
    score := 0
    selectedAnswer := none
    showExplanation := false
    quizComplete := false }

/-- Embeds `getScoreMessage` (`Quiz.jsx` lines 736-743), with the exact
percentage `(score / questions.length) * 100` taken over `ℚ`.  The
apostrophe in the first message is written `\x27`. -/
def getScoreMessage (score : Nat) : String :=
  let percentage : ℚ := ((score : ℚ) / (questionsList.length : ℚ)) * 100
  if percentage = 100 then "Perfect! You\x27ve mastered DNS! "
  else if percentage ≥ 80 then "Excellent work! You have a strong grasp of DNS concepts. "
  else if percentage ≥ 60 then "Good job! You understand the fundamentals. Keep practicing! "
  else if percentage ≥ 40 then "Not bad! Review the explanations and try again. "
  else "Keep learning! DNS takes time to master. Review and retry! "

/-- Embeds `Math.round` on a non-negative rational: JavaScript rounds half
toward `+∞`, i.e. `⌊x + 1/2⌋`. -/
def jsRound (q : ℚ) : ℤ := ⌊q + 1 / 2⌋

/-- The rounded percentage of the completion view
(`Quiz.jsx` line 753): `Math.round((score / questions.length) * 100)`. -/
def displayedPercentage (score : Nat) : ℤ :=
  jsRound (((score : ℚ) / (questionsList.length : ℚ)) * 100)

/-- The user events the rendered buttons can emit. -/
inductive UserAction where
  | answer (index : Nat)
  | next
  | restart
deriving DecidableEq, Repr

/-- Which handler a user event can reach, read off the render logic of
`Quiz.jsx`: when `quizComplete`, only the completion view with its
`Try Again` button renders (line 758); otherwise one answer button per
entry of `currentQ.options` renders, each with
`onClick={() => !showExplanation && handleAnswer(index)}` and
`disabled={showExplanation}` (lines 826-827), and the `Next`/`See
Results` button renders only under `showExplanation` (lines 865-867). -/
def canInvoke (s : QuizState) : UserAction → Bool
  | .answer index =>
    !s.quizComplete && !s.showExplanation &&
      decide (index < ((questionsList.get? s.currentQuestion).map Question.numOptions).getD 0)
  | .next => !s.quizComplete && s.showExplanation
  | .restart => s.quizComplete

/-- One user event: the handler runs exactly when the render logic
exposes it, otherwise the event has no effect. -/
def step (s : QuizState) (a : UserAction) : QuizState :=
  if canInvoke s a then
    match a with
    | .answer index => handleAnswer s index
    | .next => handleNext s
    | .restart => handleRestart s
  else s

/-- The component's full mutable context: the mount-time `domains`
`useMemo` value and the five `useState` variables. -/
structure AppState where
  domains : DomainSet
  quiz : QuizState
deriving DecidableEq, Repr

/-- The effect of `handleRestart` on the full component context: the
five state variables are reset; `domains` has an empty dependency array
(`useMemo(..., [])`, `Quiz.jsx` line 64) and is not recomputed. -/
def appRestart (s : AppState) : AppState :=
  { domains := s.domains, quiz := handleRestart s.quiz }

/-- Modelled from the spec: `restart()` "triggers a fresh
`DomainGenerator.generate()` + `QuestionBank.build()`, and resets to the
initial `InProgress` state" — the DomainSet is drawn from the random
source again and the quiz state is reset.  Stated for comparison with
`appRestart`, the code's behaviour. -/
def specRestart (rng : Nat → Fin 10 × Fin 10) (fuel : Nat)
    (_s : AppState) : Option AppState :=
  (generateDomains rng fuel).map fun d => { domains := d, quiz := initialState }

/-- A concrete random stream for witnesses: draw `k` yields word index
and TLD index `k % 10`, so successive `getRandomDomain` calls give
`stellar.com`, `quantum.org`, `nexus.net`, ... -/
def rng0 : Nat → Fin 10 × Fin 10 :=
  fun k => (⟨k % 10, Nat.mod_lt k (by decide)⟩, ⟨k % 10, Nat.mod_lt k (by decide)⟩)

/-- A random stream every draw of which yields `stellar.com`. -/
def rngConst : Nat → Fin 10 × Fin 10 := fun _ => (0, 0)

/-- The rejection-sampling loop never exits on `rng`: at every iteration
budget it is still running. -/
def loopsForeverOn (rng : Nat → Fin 10 × Fin 10) (existing : List String) : Prop :=
  ∀ k fuel, getUniqueDomain rng existing k fuel = none

/-- The DomainSet `generateDomains rng0 5` produces. -/
def domainSet0 : DomainSet :=
  { primary := "stellar.com", cluster := "okd.stellar.com",
    secondary := "quantum.org", «example» := "nexus.net",
    subdomain := "stellar", tld := ".com" }

/-- A concrete mid-session component context whose DomainSet differs
from the one `rng0` generates. -/
def app0 : AppState :=
  { domains :=
      { primary := "apex.io", cluster := "okd.apex.io",
        secondary := "forge.dev", «example» := "orbit.app",
        subdomain := "apex", tld := ".io" },
    quiz :=
      { currentQuestion := 2, score := 1, selectedAnswer := some 0,
        showExplanation := true, quizComplete := false } }

/-- Modelled from the spec: `scoreSummary()` "returns `{ score, total,
percentage = round(100*score/total) }` and a qualitative message
selected by percentage thresholds" — the message chosen from the
ROUNDED percentage (the displayed one), with the same thresholds and
messages as `getScoreMessage`.  Stated for comparison with
`getScoreMessage`, which selects from the exact percentage. -/
def scoreMessageFromRounded (score : Nat) : String :=
  let p : ℤ := displayedPercentage score
  if p = 100 then "Perfect! You\x27ve mastered DNS! "
  else if p ≥ 80 then "Excellent work! You have a strong grasp of DNS concepts. "
  else if p ≥ 60 then "Good job! You understand the fundamentals. Keep practicing! "
  else if p ≥ 40 then "Not bad! Review the explanations and try again. "
  else "Keep learning! DNS takes time to master. Review and retry! "

/-- The QuizState invariant of the spec: the index is in range while
the quiz is not complete, the score is bounded by
`currentIndex + (answerRevealed ? 1 : 0)` and by the total, and an
answer is selected exactly when the explanation is shown. -/
def quizInvariant (s : QuizState) : Prop :=
  (s.quizComplete = false → s.currentQuestion < questionsList.length) ∧
  s.score ≤ s.currentQuestion + (if s.showExplanation then 1 else 0) ∧
  s.score ≤ questionsList.length ∧
  (s.selectedAnswer = none ↔ s.showExplanation = false)

/-- The `questions` array has 59 entries. -/
lemma questionsList_length : questionsList.length = 59 := rfl

/-- The bank size, cast to `ℚ`. -/
lemma len_cast : (questionsList.length : ℚ) = 59 := by
  norm_num [questionsList_length]

/-- When the rejection-sampling loop returns a domain, that domain is
outside the excluding list (the loop only exits on
`!existing.includes(domain)`). -/
lemma getUniqueDomain_not_mem (rng : Nat → Fin 10 × Fin 10)
    (existing : List String) :
    ∀ fuel k d k2, getUniqueDomain rng existing k fuel = some (d, k2) →
      d ∉ existing := by
  intro fuel
  induction fuel with
  | zero => intro k d k2 h; simp [getUniqueDomain] at h
  | succ n ih =>
    intro k d k2 h
    unfold getUniqueDomain at h
    by_cases hc : existing.contains (getRandomDomain rng k)
    · rw [if_pos hc] at h
      exact ih _ _ _ h
    · rw [if_neg hc] at h
      obtain ⟨rfl, -⟩ : getRandomDomain rng k = d ∧ k + 1 = k2 := by
        simpa using h
      exact fun hmem => hc (List.elem_iff.mpr hmem)

/-- Exhaustive check over the 100 word×TLD combinations: every domain
the generator can draw splits at its single dot into exactly two parts,
and first part ++ "." ++ second part reassembles the domain. -/
lemma combo_facts : ∀ w t : Fin 10,
    (let p := domainWords.getD (w : Nat) "" ++ tlds.getD (t : Nat) ""
     jsSplitDot p = [(jsSplitDot p).getD 0 "", (jsSplitDot p).getD 1 ""] ∧
     (jsSplitDot p).getD 0 "" ++ ("." ++ (jsSplitDot p).getD 1 "") = p) := by
  decide

/-- The message `getScoreMessage` picks, characterized by integer score
thresholds: with a 59-question bank the exact percentage reaches 100
only at 59, 80 first at 48 (48/59 = 81.4%), 60 first at 36, 40 first
at 24. -/
lemma getScoreMessage_eq (s : Nat) :
    getScoreMessage s =
      if s = 59 then "Perfect! You\x27ve mastered DNS! "
      else if 48 ≤ s then "Excellent work! You have a strong grasp of DNS concepts. "
      else if 36 ≤ s then "Good job! You understand the fundamentals. Keep practicing! "
      else if 24 ≤ s then "Not bad! Review the explanations and try again. "
      else "Keep learning! DNS takes time to master. Review and retry! " := by
  simp only [getScoreMessage, len_cast]
  have key : ∀ c : ℕ, ((c : ℚ) ≤ (s : ℚ) / 59 * 100) ↔ c * 59 ≤ s * 100 := by
    intro c
    rw [div_mul_eq_mul_div, le_div_iff₀ (by norm_num : (0 : ℚ) < 59),
      ← Nat.cast_le (α := ℚ)]
    push_cast
    constructor <;> intro h <;> linarith
  have h100 : ((s : ℚ) / 59 * 100 = 100) ↔ s = 59 := by
    rw [div_mul_eq_mul_div, div_eq_iff (by norm_num : (59 : ℚ) ≠ 0)]
    rw [show ((s : ℚ) * 100 = 100 * 59) ↔ ((s * 100 : ℕ) : ℚ) = ((5900 : ℕ) : ℚ) by
      push_cast; constructor <;> intro h <;> linarith]
    rw [Nat.cast_inj]
    omega
  have h80 := key 80
  have h60 := key 60
  have h40 := key 40
  norm_num at h80 h60 h40
  have h80n : (4720 ≤ s * 100) ↔ 48 ≤ s := by omega
  have h60n : (3540 ≤ s * 100) ↔ 36 ≤ s := by omega
  have h40n : (2360 ≤ s * 100) ↔ 24 ≤ s := by omega
  simp only [ge_iff_le, h100, h80, h60, h40, h80n, h60n, h40n]

/-- The message the spec-modelled `scoreMessageFromRounded` picks, by
integer score thresholds: the rounded percentage reaches 80 already at
score 47 (displayed as 80%), 60 first at 36, 40 first at 24. -/
lemma scoreMessageFromRounded_eq (s : Nat) :
    scoreMessageFromRounded s =
      if s = 59 then "Perfect! You\x27ve mastered DNS! "
      else if 47 ≤ s then "Excellent work! You have a strong grasp of DNS concepts. "
      else if 36 ≤ s then "Good job! You understand the fundamentals. Keep practicing! "
      else if 24 ≤ s then "Not bad! Review the explanations and try again. "
      else "Keep learning! DNS takes time to master. Review and retry! " := by
  simp only [scoreMessageFromRounded, displayedPercentage, jsRound, len_cast]
  have hq : (s : ℚ) / 59 * 100 + 1 / 2 =
      ((200 * (s : ℤ) + 59 : ℤ) : ℚ) / ((118 : ℕ) : ℚ) := by
    push_cast
    ring
  rw [hq, Rat.floor_intCast_div_natCast]
  have h1 : ((200 * (s : ℤ) + 59) / ((118 : ℕ) : ℤ) = 100) ↔ s = 59 := by
    push_cast
    omega
  have h2 : ((80 : ℤ) ≤ (200 * (s : ℤ) + 59) / ((118 : ℕ) : ℤ)) ↔ 47 ≤ s := by
    push_cast
    omega
  have h3 : ((60 : ℤ) ≤ (200 * (s : ℤ) + 59) / ((118 : ℕ) : ℤ)) ↔ 36 ≤ s := by
    push_cast
    omega
  have h4 : ((40 : ℤ) ≤ (200 * (s : ℤ) + 59) / ((118 : ℕ) : ℤ)) ↔ 24 ≤ s := by
    push_cast
    omega
  simp only [ge_iff_le, h1, h2, h3, h4]

/-- C1 (counterexample): `handleRestart` does not draw from the random
source again — the component context keeps its mount-time DomainSet
unchanged, while a fresh `generate()` (spec-modelled `specRestart`, here
run on the stream `rng0`) would install a different DomainSet. -/
theorem restart_not_fresh_generation_cex :
    (appRestart app0).domains = app0.domains ∧
    specRestart rng0 5 app0 = some { domains := domainSet0, quiz := initialState } ∧
    domainSet0 ≠ app0.domains := by
  refine ⟨rfl, ?_, by decide⟩
  show (generateDomains rng0 5).map _ = _
  rw [show generateDomains rng0 5 = some domainSet0 from by decide]
  rfl

/-- C1 (amended): every call to `handleRestart` resets the five state
variables to `currentIndex=0, score=0, selectedAnswer=none,
answerRevealed=false, complete=false`, and retains the DomainSet
generated at mount (the `domains` `useMemo` has an empty dependency
array), so the question list is rebuilt from the same DomainSet rather
than a newly generated one. -/
theorem restart_resets_state_retains_domains (s : AppState) :
    appRestart s = { domains := s.domains, quiz := initialState } := rfl

/-- C2 (counterexample): the question bank does not have 50 questions. -/
theorem questionBank_size_ne_50 : questionsList.length ≠ 50 := by decide

/-- C2 (amended): the `questions` array — the total used in the
progress display and in scoring — has exactly 59 entries. -/
theorem questionBank_size_eq_59 : questionsList.length = 59 := rfl

/-- C3 (counterexample): the rejection-sampling loop of
`getUniqueDomain` is unbounded — on a random stream whose every draw is
`stellar.com`, with `stellar.com` excluded, the loop has not returned
after any number of iterations: there is no retry cap and no
"generation exhausted" failure path, the code simply keeps looping. -/
theorem getUniqueDomain_unbounded_cex :
    loopsForeverOn rngConst ["stellar.com"] := by
  intro k fuel
  induction fuel generalizing k with
  | zero => rfl
  | succ n ih =>
    have hc : (["stellar.com"].contains (getRandomDomain rngConst k)) = true := rfl
    show (if ["stellar.com"].contains (getRandomDomain rngConst k) then
        getUniqueDomain rngConst ["stellar.com"] (k + 1) n
      else some (getRandomDomain rngConst k, k + 1)) = none
    rw [hc, if_pos rfl]
    exact ih (k + 1)

/-- C3 (amended): `getUniqueDomain` is an unguarded resample-until-unique
loop with no retry cap: whenever it does return a domain, that domain is
not in the excluding list, but termination depends on the random stream
(see the counterexample for a stream on which it never returns). -/
theorem getUniqueDomain_unique_when_returns (rng : Nat → Fin 10 × Fin 10)
    (existing : List String) (k fuel : Nat) (d : String) (k2 : Nat)
    (h : getUniqueDomain rng existing k fuel = some (d, k2)) :
    d ∉ existing :=
  getUniqueDomain_not_mem rng existing fuel k d k2 h

/-- C3 (witness): on the stream `rng0` the loop returns `quantum.org`
after one collision, and `quantum.org` is outside the excluding list. -/
theorem getUniqueDomain_unique_when_returns_witness :
    getUniqueDomain rng0 ["stellar.com"] 0 2 = some ("quantum.org", 2) ∧
    "quantum.org" ∉ ["stellar.com"] :=
  ⟨by decide,
    getUniqueDomain_unique_when_returns rng0 ["stellar.com"] 0 2 "quantum.org" 2
      (by decide)⟩

/-- C4 (counterexample): at score 47 of 59 the displayed rounded
percentage is 80, the message the claim derives from that rounded
percentage is the ">= 80" one, but `getScoreMessage` — which tests the
exact percentage 4700/59 = 79.66 — returns the ">= 60" message: the
displayed percentage and the message tier disagree. -/
theorem scoreMessage_rounded_mismatch_at_47 :
    getScoreMessage 47 =
      "Good job! You understand the fundamentals. Keep practicing! " ∧
    scoreMessageFromRounded 47 =
      "Excellent work! You have a strong grasp of DNS concepts. " ∧
    displayedPercentage 47 = 80 := by
  refine ⟨?_, ?_, ?_⟩
  · rw [getScoreMessage_eq]
    decide
  · rw [scoreMessageFromRounded_eq]
    decide
  · unfold displayedPercentage jsRound
    rw [len_cast]
    rw [show ((47 : ℕ) : ℚ) / 59 * 100 + 1 / 2 =
        ((9459 : ℤ) : ℚ) / ((118 : ℕ) : ℚ) from by push_cast; norm_num]
    rw [Rat.floor_intCast_div_natCast]
    decide

/-- C4 (amended): the displayed percentage is `round(100*score/total)`,
but the qualitative message is selected from the exact, unrounded
percentage by the same inclusive highest-first thresholds; over the
shipped 59-question bank the message `getScoreMessage` picks agrees
with the tier of the rounded displayed percentage for every score
`0 ≤ s ≤ 59` except exactly `s = 47`. -/
theorem scoreMessage_matches_rounded_iff_not_47 (s : Fin 60) :
    (getScoreMessage s.val = scoreMessageFromRounded s.val) ↔ s.val ≠ 47 := by
  rw [getScoreMessage_eq, scoreMessageFromRounded_eq]
  revert s
  decide

/-- C5: in an in-progress, unrevealed state, `handleAnswer optionIndex`
(with `optionIndex < 4` and the current question `q` of the bank) sets
`selectedAnswer = optionIndex`, reveals the explanation, increments the
score by exactly 1 iff `optionIndex` equals `q.correct` (otherwise
leaves it unchanged), and changes no other state field. -/
theorem handleAnswer_spec (s : QuizState) (index : Nat) (q : Question)
    (hrev : s.showExplanation = false) (hcomp : s.quizComplete = false)
    (hidx : index < 4)
    (hq : questionsList.get? s.currentQuestion = some q) :
    (handleAnswer s index).selectedAnswer = some index ∧
    (handleAnswer s index).showExplanation = true ∧
    ((handleAnswer s index).score = s.score + 1 ↔ index = q.correct) ∧
    ((handleAnswer s index).score = s.score ↔ index ≠ q.correct) ∧
    (handleAnswer s index).currentQuestion = s.currentQuestion ∧
    (handleAnswer s index).quizComplete = s.quizComplete := by
  have hsc : (handleAnswer s index).score =
      if q.correct = index then s.score + 1 else s.score := by
    dsimp only [handleAnswer]
    rw [hq]
    simp only [Option.map_some', Option.some.injEq]
  refine ⟨rfl, rfl, ?_, ?_, rfl, rfl⟩
  · rw [hsc]
    split
    · next h => exact ⟨fun _ => h.symm, fun _ => rfl⟩
    · next h =>
      refine ⟨fun hh => by omega, fun hh => absurd hh.symm h⟩
  · rw [hsc]
    split
    · next h =>
      refine ⟨fun hh => by omega, fun hh => absurd h.symm hh⟩
    · next h => exact ⟨fun _ hh => h hh.symm, fun _ => rfl⟩

/-- C5 (witness): answering option 1 on the first question (whose
`correct` is 1) from the initial state. -/
theorem handleAnswer_spec_witness :
    (handleAnswer initialState 1).selectedAnswer = some 1 ∧
    (handleAnswer initialState 1).showExplanation = true ∧
    ((handleAnswer initialState 1).score = initialState.score + 1 ↔
      1 = (Question.mk 1 4).correct) ∧
    ((handleAnswer initialState 1).score = initialState.score ↔
      1 ≠ (Question.mk 1 4).correct) ∧
    (handleAnswer initialState 1).currentQuestion = initialState.currentQuestion ∧
    (handleAnswer initialState 1).quizComplete = initialState.quizComplete :=
  handleAnswer_spec initialState 1 (Question.mk 1 4) rfl rfl (by decide) (by decide)

/-- C6: with the explanation revealed, `handleNext` at the last index
transitions to Complete leaving every other field — in particular the
score — unchanged; below the last index it increments `currentQuestion`,
clears `selectedAnswer` and `showExplanation`, and leaves the score and
the completion flag unchanged (the session stays in progress). -/
theorem handleNext_spec (s : QuizState) (hrev : s.showExplanation = true) :
    (s.currentQuestion = questionsList.length - 1 →
      handleNext s = { s with quizComplete := true }) ∧
    (s.currentQuestion < questionsList.length - 1 →
      handleNext s = { s with currentQuestion := s.currentQuestion + 1,
                              selectedAnswer := none,
                              showExplanation := false }) := by
  constructor
  · intro hlast
    dsimp only [handleNext]
    rw [if_neg (by omega)]
  · intro hlt
    dsimp only [handleNext]
    rw [if_pos hlt]

/-- C6 (witness): a revealed state at the last index 58 completes the
quiz; the below-last branch is vacuous there. -/
theorem handleNext_spec_witness :
    ((QuizState.mk 58 40 (some 1) true false).currentQuestion =
        questionsList.length - 1 →
      handleNext (QuizState.mk 58 40 (some 1) true false) =
        { QuizState.mk 58 40 (some 1) true false with quizComplete := true }) ∧
    ((QuizState.mk 58 40 (some 1) true false).currentQuestion <
        questionsList.length - 1 →
      handleNext (QuizState.mk 58 40 (some 1) true false) =
        { QuizState.mk 58 40 (some 1) true false with
            currentQuestion := 58 + 1, selectedAnswer := none,
            showExplanation := false }) :=
  handleNext_spec (QuizState.mk 58 40 (some 1) true false) rfl

/-- C7: once `quizComplete` is set, the score — indeed the whole state —
is frozen: an answer or next event leaves the state unchanged (the
completion view renders neither answer buttons nor a Next button, so
the events are rejected as no-ops), and the only rendered command is
`Try Again`, which runs `handleRestart`. -/
theorem complete_state_frozen (s : QuizState) (hcomp : s.quizComplete = true) :
    (∀ index, step s (UserAction.answer index) = s) ∧
    step s UserAction.next = s ∧
    step s UserAction.restart = handleRestart s := by
  refine ⟨fun index => ?_, ?_, ?_⟩ <;>
    simp [step, canInvoke, hcomp]

/-- C7 (witness): a concrete completed state absorbs answer and next
events and routes restart to `handleRestart`. -/
theorem complete_state_frozen_witness :
    (∀ index, step (QuizState.mk 58 40 (some 2) true true)
        (UserAction.answer index) = QuizState.mk 58 40 (some 2) true true) ∧
    step (QuizState.mk 58 40 (some 2) true true) UserAction.next =
      QuizState.mk 58 40 (some 2) true true ∧
    step (QuizState.mk 58 40 (some 2) true true) UserAction.restart =
      handleRestart (QuizState.mk 58 40 (some 2) true true) :=
  complete_state_frozen (QuizState.mk 58 40 (some 2) true true) rfl

/-- C8: every DomainSet `generateDomains` returns has pairwise distinct
`primary`, `secondary`, `example`; its `cluster` is `"okd." ++ primary`;
and its `subdomain` and `tld` are the two parts of splitting `primary`
at its (single, hence first) dot, the dot going to `tld`. -/
theorem generateDomains_spec (rng : Nat → Fin 10 × Fin 10) (fuel : Nat)
    (ds : DomainSet) (h : generateDomains rng fuel = some ds) :
    ds.primary ≠ ds.secondary ∧ ds.primary ≠ ds.«example» ∧
      ds.secondary ≠ ds.«example» ∧
      ds.cluster = "okd." ++ ds.primary ∧
      ∃ rest, jsSplitDot ds.primary = [ds.subdomain, rest] ∧
        ds.tld = "." ++ rest := by
  simp only [generateDomains] at h
  split at h
  · exact absurd h (by simp)
  next sec k h1 =>
    split at h
    · exact absurd h (by simp)
    next ex k2 h2 =>
      simp only [Option.some.injEq] at h
      subst h
      have hsec : sec ∉ [getRandomDomain rng 0] :=
        getUniqueDomain_not_mem rng _ _ _ _ _ h1
      have hex : ex ∉ [getRandomDomain rng 0, sec] :=
        getUniqueDomain_not_mem rng _ _ _ _ _ h2
      simp only [List.mem_cons, List.mem_singleton, not_or] at hsec hex
      obtain ⟨hf1, hf2⟩ := combo_facts (rng 0).1 (rng 0).2
      refine ⟨?_, ?_, ?_, rfl,
        ⟨(jsSplitDot (getRandomDomain rng 0)).getD 1 "", ?_, rfl⟩⟩
      · exact fun hh => hsec.1 hh.symm
      · exact fun hh => hex.1 hh.symm
      · exact fun hh => hex.2.1 hh.symm
      · exact hf1

/-- C8 (witness): the DomainSet generated on the stream `rng0`. -/
theorem generateDomains_spec_witness :
    generateDomains rng0 5 = some domainSet0 ∧
    (domainSet0.primary ≠ domainSet0.secondary ∧
      domainSet0.primary ≠ domainSet0.«example» ∧
      domainSet0.secondary ≠ domainSet0.«example» ∧
      domainSet0.cluster = "okd." ++ domainSet0.primary ∧
      ∃ rest, jsSplitDot domainSet0.primary = [domainSet0.subdomain, rest] ∧
        domainSet0.tld = "." ++ rest) :=
  ⟨by decide, generateDomains_spec rng0 5 domainSet0 (by decide)⟩

/-- C9: the QuizState invariant holds in the initial state and is
preserved by every user event (each handler runs exactly under the
render-level guard that is its precondition), and the score never
decreases except across a restart. -/
theorem quizInvariant_preserved :
    quizInvariant initialState ∧
    ∀ s a, quizInvariant s →
      quizInvariant (step s a) ∧
        (a ≠ UserAction.restart → s.score ≤ (step s a).score) := by
  constructor
  · exact ⟨fun _ => by simp [initialState, questionsList_length],
      by simp [initialState], by simp [initialState],
      by simp [initialState]⟩
  intro s a hinv
  obtain ⟨h1, h2, h3, h4⟩ := hinv
  cases hci : canInvoke s a with
  | false =>
    simp only [step, hci, Bool.false_eq_true, if_false]
    exact ⟨⟨h1, h2, h3, h4⟩, fun _ => le_refl _⟩
  | true =>
    cases a with
    | answer i =>
      have hci' := hci
      simp only [canInvoke, Bool.and_eq_true, Bool.not_eq_true',
        decide_eq_true_eq] at hci'
      obtain ⟨⟨hcomp, hrev⟩, hlt⟩ := hci'
      simp only [step, hci, if_true]
      have hcur : s.currentQuestion < questionsList.length := h1 hcomp
      have h2n : s.score ≤ s.currentQuestion := by
        rw [hrev] at h2
        simpa using h2
      have hscore : (handleAnswer s i).score = s.score + 1 ∨
          (handleAnswer s i).score = s.score := by
        dsimp only [handleAnswer]
        split
        · exact Or.inl rfl
        · exact Or.inr rfl
      refine ⟨⟨fun _ => hcur, ?_, ?_, by simp [handleAnswer]⟩, fun _ => ?_⟩
      · show (handleAnswer s i).score ≤
          (handleAnswer s i).currentQuestion +
            if (handleAnswer s i).showExplanation = true then 1 else 0
        have hc : (handleAnswer s i).currentQuestion = s.currentQuestion := rfl
        have hshow : (handleAnswer s i).showExplanation = true := rfl
        rw [hc, hshow, if_pos rfl]
        rcases hscore with h | h <;> rw [h] <;> omega
      · show (handleAnswer s i).score ≤ questionsList.length
        rcases hscore with h | h <;> rw [h] <;> omega
      · rcases hscore with h | h <;> rw [h] <;> omega
    | next =>
      have hci' := hci
      simp only [canInvoke, Bool.and_eq_true, Bool.not_eq_true'] at hci'
      obtain ⟨hcomp, hrev⟩ := hci'
      simp only [step, hci, if_true]
      have hcur : s.currentQuestion < questionsList.length := h1 hcomp
      have h2n : s.score ≤ s.currentQuestion + 1 := by
        rw [hrev] at h2
        simpa using h2
      dsimp only [handleNext]
      split
      · next hlt =>
        refine ⟨⟨fun _ => ?_, ?_, h3, by simp⟩, fun _ => le_refl _⟩
        · show s.currentQuestion + 1 < questionsList.length
          omega
        · show s.score ≤ s.currentQuestion + 1 + if false = true then 1 else 0
          simpa using h2n
      · next hge =>
        refine ⟨⟨fun hc => by simp at hc, ?_, h3, h4⟩, fun _ => le_refl _⟩
        show s.score ≤ s.currentQuestion + if s.showExplanation = true then 1 else 0
        exact h2
    | restart =>
      simp only [step, hci, if_true]
      exact ⟨⟨fun _ => by simp [handleRestart, questionsList_length],
        by simp [handleRestart], by simp [handleRestart],
        by simp [handleRestart]⟩, fun hne => absurd rfl hne⟩

/-- C10: for every DomainSet the generator produces, `subdomain ++ tld`
reconstructs `primary` exactly — `primary` is a dot-free word
concatenated with a TLD that starts with its single dot. -/
theorem subdomain_append_tld_eq_primary (rng : Nat → Fin 10 × Fin 10)
    (fuel : Nat) (ds : DomainSet) (h : generateDomains rng fuel = some ds) :
    ds.subdomain ++ ds.tld = ds.primary := by
  simp only [generateDomains] at h
  split at h
  · exact absurd h (by simp)
  next sec k h1 =>
    split at h
    · exact absurd h (by simp)
    next ex k2 h2 =>
      simp only [Option.some.injEq] at h
      subst h
      exact (combo_facts (rng 0).1 (rng 0).2).2

/-- C10 (witness): on the stream `rng0`,
`"stellar" ++ ".com" = "stellar.com"`. -/
theorem subdomain_append_tld_eq_primary_witness :
    generateDomains rng0 5 = some domainSet0 ∧
    domainSet0.subdomain ++ domainSet0.tld = domainSet0.primary :=
  ⟨by decide, subdomain_append_tld_eq_primary rng0 5 domainSet0 (by decide)⟩
